import Mathlib

/-!
Verification of the `pw_stream_uart_mcuxpresso` UART DMA stream driver
(`pw_stream_uart_mcuxpresso/dma_stream.cc`).

The driver is shallowly embedded: the transmit state machine
(`TriggerWriteDma`, `TxRxCompletionCallback`, `DoWrite`), the lifecycle
(`Init`, `Deinit`, the destructor) and the read stub (`DoRead`) are
translated into pure Lean functions.  Hardware interactions are recorded
as events: each call to `USART_TransferSendDMA` is a `Transfer` value
(chunk offset into the caller's buffer, and chunk byte count), and the
lifecycle routines record a `HwEvent` trace.  The hardware constant
`kUsartDmaMaxTransferCount` (defined in the driver's header as the DMA
engine's maximum single-transfer count) is kept as a parameter
`maxChunk`; theorems assume only that it is positive.  The asynchronous
TX-idle completion callbacks that drive a blocking write to completion
are delivered by the fuel-indexed `runTxCallbacks`; a fuel of one unit
per buffer byte is provably sufficient.
-/

set_option autoImplicit false

namespace UartDmaStream

/-- Embedding of `pw::Status` values used by the driver. -/
inductive Status where
  | ok
  | invalidArgument
  | failedPrecondition
  | internal
deriving DecidableEq

/-- One hardware transfer descriptor (`usart_transfer_t`): the offset of
`txData` into the caller's buffer, and `dataSize`. -/
structure Transfer where
  offset : Nat
  dataSize : Nat
deriving DecidableEq

/-- The `UsartDmaTxData` record of the driver: buffer (modelled by its
byte count), cursor `tx_idx`, the reused per-chunk transfer descriptor,
the atomic `busy` flag, and the binary-semaphore notification (modelled
by whether it has been released and not yet acquired). -/
structure UsartDmaTxData where
  bufferSize : Nat
  tx_idx : Nat
  transfer : Transfer
  busy : Bool
  notified : Bool
deriving DecidableEq

/-- Hardware completion statuses delivered to the callback. -/
inductive HwStatus where
  | txIdle
  | rxIdle
  | other
deriving DecidableEq

/-- The chunk size computed by `TriggerWriteDma` (dma_stream.cc:128-134):
the remaining byte count when fewer than `maxChunk` bytes remain,
otherwise `maxChunk`. -/
def chunkSize (maxChunk bufLen idx : Nat) : Nat :=
  if idx + maxChunk > bufLen then bufLen - idx else maxChunk

/-- `UartDmaStreamMcuxpresso::TriggerWriteDma` (dma_stream.cc:124-138):
points the transfer descriptor at `buffer + tx_idx`, clamps the chunk
size to the remaining byte count, and issues one `USART_TransferSendDMA`
(returned as the `Transfer` event). -/
def TriggerWriteDma (maxChunk : Nat) (tx : UsartDmaTxData) :
    UsartDmaTxData × Transfer :=
  let offset := tx.tx_idx
  let dataSize :=
    if tx.tx_idx + maxChunk > tx.bufferSize then
      tx.bufferSize - tx.tx_idx
    else
      maxChunk
  let tr : Transfer := { offset := offset, dataSize := dataSize }
  ({ tx with transfer := tr }, tr)

/-- `UartDmaStreamMcuxpresso::TxRxCompletionCallback`
(dma_stream.cc:141-160) acting on the transmit record.  On
`kStatus_USART_TxIdle` it advances `tx_idx` by the completed chunk's
`dataSize`; if the cursor reached the buffer size it releases the
notification, otherwise the fatal check `PW_CHECK_INT_LT(tx_idx,
buffer.size_bytes())` must hold (`none` models the abort) and the next
chunk is re-triggered.  Its transfer events are returned alongside the
new state.  Any other status is ignored. -/
def TxRxCompletionCallback (maxChunk : Nat) (status : HwStatus)
    (tx : UsartDmaTxData) : Option (UsartDmaTxData × List Transfer) :=
  match status with
  | HwStatus.txIdle =>
      let tx1 := { tx with tx_idx := tx.tx_idx + tx.transfer.dataSize }
      if tx1.tx_idx = tx1.bufferSize then
        some ({ tx1 with notified := true }, [])
      else if tx1.tx_idx < tx1.bufferSize then
        let p := TriggerWriteDma maxChunk tx1
        some (p.1, [p.2])
      else
        none
  | _ => some (tx, [])

/-- Delivery of TX-idle hardware completions until the notification has
been released: the hardware completes each in-flight chunk and invokes
`TxRxCompletionCallback`.  `none` models either a `PW_CHECK` abort inside
the callback or fuel exhaustion (a write that never completes). -/
def runTxCallbacks (maxChunk : Nat) :
    Nat → UsartDmaTxData → Option (UsartDmaTxData × List Transfer)
  | 0, tx => if tx.notified then some (tx, []) else none
  | fuel + 1, tx =>
      if tx.notified then
        some (tx, [])
      else
        match TxRxCompletionCallback maxChunk HwStatus.txIdle tx with
        | none => none
        | some (tx1, ts1) =>
            match runTxCallbacks maxChunk fuel tx1 with
            | none => none
            | some (tx2, ts2) => some (tx2, ts1 ++ ts2)

/-- Driver instance state relevant to the write path: the
`initialized_` flag and the transmit record. -/
structure DriverState where
  initialized : Bool
  tx : UsartDmaTxData
deriving DecidableEq

/-- `UartDmaStreamMcuxpresso::DoWrite` (dma_stream.cc:172-193): rejects
an empty buffer with `InvalidArgument`; atomically exchanges the busy
flag and returns `FailedPrecondition` if it was already set; otherwise
stores the buffer, resets the cursor, triggers the first chunk, blocks
until the completion callbacks release the notification, acquires it,
clears the busy flag and returns OK.  The result carries the final
driver state and the list of `USART_TransferSendDMA` invocations;
`none` models a write that never returns (notification never
released). -/
def DoWrite (maxChunk : Nat) (st : DriverState) (dataLen : Nat) :
    Option (Status × DriverState × List Transfer) :=
  if dataLen = 0 then
    some (Status.invalidArgument, st, [])
  else
    let was_busy := st.tx.busy
    let st1 : DriverState := { st with tx := { st.tx with busy := true } }
    if was_busy then
      some (Status.failedPrecondition, st1, [])
    else
      let st2 : DriverState :=
        { st1 with tx := { st1.tx with bufferSize := dataLen, tx_idx := 0 } }
      let p := TriggerWriteDma maxChunk st2.tx
      match runTxCallbacks maxChunk dataLen p.1 with
      | none => none
      | some (tx2, ts) =>
          some (Status.ok,
                { st2 with tx := { tx2 with notified := false, busy := false } },
                p.2 :: ts)

/-- Embedding of `pw::StatusWithSize`. -/
structure StatusWithSize where
  status : Status
  size : Nat
deriving DecidableEq

/-- `UartDmaStreamMcuxpresso::DoRead` (dma_stream.cc:162-165): returns
`StatusWithSize(data.size())` — OK with the requested length — leaving
the destination buffer untouched and issuing no hardware transfer.  The
returned triple is (status-with-size, destination buffer after the
call, hardware transfers issued). -/
def DoRead (data : List Nat) : StatusWithSize × List Nat × List Transfer :=
  ({ status := Status.ok, size := data.length }, data, [])

/-- The driver configuration (`UartDmaStreamMcuxpresso::Config`): the
USART and DMA base pointers are modelled as `Option Nat` (`none` =
null). -/
structure Config where
  usart_base : Option Nat
  baud_rate : Nat
  parity : Nat
  dma_base : Option Nat
  tx_dma_ch : Nat
  rx_dma_ch : Nat
  rx_input_mux_dmac_ch_request_en : Nat
  tx_input_mux_dmac_ch_request_en : Nat
deriving DecidableEq

/-- Hardware-mutating calls made by the lifecycle routines, in program
order. -/
inductive HwEvent where
  | usartInit
  | inputmuxInit
  | inputmuxEnableSignal (sig : Nat)
  | inputmuxDeinit
  | enableChannel (ch : Nat)
  | disableChannel (ch : Nat)
  | dmaCreateHandle (ch : Nat)
  | transferCreateHandleDMA
  | usartDeinit
deriving DecidableEq

/-- `UartDmaStreamMcuxpresso::Deinit` (dma_stream.cc:30-43): disables
both DMA channels inside the interrupt lock, then deinitializes the
USART. -/
def Deinit (cfg : Config) : List HwEvent :=
  [HwEvent.disableChannel cfg.tx_dma_ch,
   HwEvent.disableChannel cfg.rx_dma_ch,
   HwEvent.usartDeinit]

/-- `UartDmaStreamMcuxpresso::Init` (dma_stream.cc:54-121).  Outcomes of
the two fallible hardware calls are injected: `usartInitOk` for
`USART_Init` and `createHandleOk` for `USART_TransferCreateHandleDMA`.
Returns the status, the final value of `initialized_`, and the hardware
event trace. -/
def Init (cfg : Config) (srcclk : Nat) (usartInitOk createHandleOk : Bool) :
    Status × Bool × List HwEvent :=
  if srcclk = 0 then
    (Status.invalidArgument, false, [])
  else if cfg.usart_base = none then
    (Status.invalidArgument, false, [])
  else if cfg.baud_rate = 0 then
    (Status.invalidArgument, false, [])
  else if cfg.dma_base = none then
    (Status.invalidArgument, false, [])
  else
    let ev1 := [HwEvent.usartInit]
    if usartInitOk = false then
      (Status.internal, false, ev1)
    else
      let ev2 := ev1 ++
        [HwEvent.inputmuxInit,
         HwEvent.inputmuxEnableSignal cfg.rx_input_mux_dmac_ch_request_en,
         HwEvent.inputmuxEnableSignal cfg.tx_input_mux_dmac_ch_request_en,
         HwEvent.inputmuxDeinit,
         HwEvent.enableChannel cfg.tx_dma_ch,
         HwEvent.enableChannel cfg.rx_dma_ch,
         HwEvent.dmaCreateHandle cfg.tx_dma_ch,
         HwEvent.dmaCreateHandle cfg.rx_dma_ch,
         HwEvent.transferCreateHandleDMA]
      if createHandleOk = false then
        (Status.internal, false, ev2 ++ Deinit cfg)
      else
        (Status.ok, true, ev2)

/-- `UartDmaStreamMcuxpresso::~UartDmaStreamMcuxpresso`
(dma_stream.cc:45-50): a no-op unless `initialized_` is set, in which
case it calls `Deinit`. -/
def destructorEvents (initializedFlag : Bool) (cfg : Config) : List HwEvent :=
  if initializedFlag then Deinit cfg else []

/-- Whether DMA channel `ch` is enabled after the event trace has been
replayed (channels start disabled). -/
def stepChannel (ch : Nat) (b : Bool) : HwEvent → Bool
  | HwEvent.enableChannel c => if c = ch then true else b
  | HwEvent.disableChannel c => if c = ch then false else b
  | _ => b

def channelEnabled (ch : Nat) (evs : List HwEvent) : Bool :=
  evs.foldl (stepChannel ch) false

/-- Whether the USART is initialized after the event trace has been
replayed. -/
def stepUsart (b : Bool) : HwEvent → Bool
  | HwEvent.usartInit => true
  | HwEvent.usartDeinit => false
  | _ => b

def usartActive (evs : List HwEvent) : Bool :=
  evs.foldl stepUsart false

/-- The transmit record while a chunk starting at offset `idx` is in
flight: the state left by `TriggerWriteDma` when invoked with cursor
`idx`. -/
def inflight (maxChunk bufLen idx : Nat) (b : Bool) : UsartDmaTxData :=
  { bufferSize := bufLen, tx_idx := idx,
    transfer := { offset := idx, dataSize := chunkSize maxChunk bufLen idx },
    busy := b, notified := false }

/-- The transfer events issued by the completion callbacks when a chunk
at offset `idx` is in flight (excluding that in-flight chunk itself). -/
def callbackTrace (maxChunk bufLen : Nat) : Nat → Nat → List Transfer
  | 0, _ => []
  | fuel + 1, idx =>
      let idx1 := idx + chunkSize maxChunk bufLen idx
      if idx1 = bufLen then []
      else
        { offset := idx1, dataSize := chunkSize maxChunk bufLen idx1 } ::
          callbackTrace maxChunk bufLen fuel idx1

/-- All transfer events of a write from cursor `idx` on: the chunk
triggered at `idx` followed by the chunks the callbacks trigger. -/
def writeTrace (maxChunk bufLen fuel idx : Nat) : List Transfer :=
  { offset := idx, dataSize := chunkSize maxChunk bufLen idx } ::
    callbackTrace maxChunk bufLen fuel idx

/-- A transmit record as constructed by the driver at rest. -/
def freshTx : UsartDmaTxData :=
  { bufferSize := 0, tx_idx := 0, transfer := { offset := 0, dataSize := 0 },
    busy := false, notified := false }

/-- A driver instance at rest (here: before `Init` has been run). -/
def freshState : DriverState :=
  { initialized := false, tx := freshTx }

/-- A fully populated sample configuration. -/
def sampleConfig : Config :=
  { usart_base := some 1, baud_rate := 115200, parity := 0,
    dma_base := some 2, tx_dma_ch := 2, rx_dma_ch := 3,
    rx_input_mux_dmac_ch_request_en := 4,
    tx_input_mux_dmac_ch_request_en := 5 }

/-! ### Arithmetic facts about the chunk size computation -/

lemma chunkSize_eq_min (maxChunk bufLen idx : Nat) (h : idx ≤ bufLen) :
    chunkSize maxChunk bufLen idx = min maxChunk (bufLen - idx) := by
  unfold chunkSize; split <;> omega

lemma chunkSize_pos (maxChunk bufLen idx : Nat) (hm : 1 ≤ maxChunk)
    (h : idx < bufLen) : 1 ≤ chunkSize maxChunk bufLen idx := by
  unfold chunkSize; split <;> omega

lemma add_chunkSize_le (maxChunk bufLen idx : Nat) (h : idx ≤ bufLen) :
    idx + chunkSize maxChunk bufLen idx ≤ bufLen := by
  unfold chunkSize; split <;> omega

lemma chunkSize_le_max (maxChunk bufLen idx : Nat) (h : idx ≤ bufLen) :
    chunkSize maxChunk bufLen idx ≤ maxChunk := by
  unfold chunkSize; split <;> omega

lemma chunkSize_of_mid (maxChunk bufLen idx : Nat) (h : idx ≤ bufLen)
    (hlt : idx + chunkSize maxChunk bufLen idx < bufLen) :
    chunkSize maxChunk bufLen idx = maxChunk := by
  by_cases hc : idx + maxChunk > bufLen
  · exfalso; simp [chunkSize, hc] at hlt; omega
  · simp [chunkSize, hc]

/-! ### The write state machine -/

lemma TriggerWriteDma_eq (maxChunk : Nat) (tx : UsartDmaTxData) :
    TriggerWriteDma maxChunk tx =
      ({ tx with transfer := { offset := tx.tx_idx,
                               dataSize := chunkSize maxChunk tx.bufferSize tx.tx_idx } },
       { offset := tx.tx_idx,
         dataSize := chunkSize maxChunk tx.bufferSize tx.tx_idx }) := rfl

lemma inflight_notified (maxChunk bufLen idx : Nat) (b : Bool) :
    (inflight maxChunk bufLen idx b).notified = false := rfl

lemma runTx_notified (maxChunk fuel : Nat) (tx : UsartDmaTxData)
    (h : tx.notified = true) :
    runTxCallbacks maxChunk fuel tx = some (tx, []) := by
  cases fuel <;> simp [runTxCallbacks, h]

/-- One TX-idle completion, delivered while the chunk at offset `idx` is
in flight: the cursor advances by the chunk size; if it reached the end
the notification is released, otherwise the next chunk is triggered. -/
lemma callback_inflight (maxChunk bufLen idx : Nat) (b : Bool)
    (h : idx < bufLen) :
    TxRxCompletionCallback maxChunk HwStatus.txIdle
        (inflight maxChunk bufLen idx b) =
      if idx + chunkSize maxChunk bufLen idx = bufLen then
        some ({ bufferSize := bufLen, tx_idx := bufLen,
                transfer := { offset := idx,
                              dataSize := chunkSize maxChunk bufLen idx },
                busy := b, notified := true }, [])
      else
        some (inflight maxChunk bufLen (idx + chunkSize maxChunk bufLen idx) b,
              [{ offset := idx + chunkSize maxChunk bufLen idx,
                 dataSize :=
                   chunkSize maxChunk bufLen
                     (idx + chunkSize maxChunk bufLen idx) }]) := by
  have hle := add_chunkSize_le maxChunk bufLen idx (le_of_lt h)
  by_cases he : idx + chunkSize maxChunk bufLen idx = bufLen
  · simp [TxRxCompletionCallback, inflight, he]
  · have hlt : idx + chunkSize maxChunk bufLen idx < bufLen :=
      lt_of_le_of_ne hle he
    simp [TxRxCompletionCallback, inflight, he, hlt, TriggerWriteDma_eq]

/-- Running the completion callbacks from an in-flight chunk at offset
`idx` terminates with the cursor at the buffer size, the notification
released, and emits exactly `callbackTrace`. -/
lemma runTx_inflight (maxChunk bufLen : Nat) (hm : 1 ≤ maxChunk) :
    ∀ fuel idx b, idx < bufLen → bufLen - idx ≤ fuel →
      ∃ tr, runTxCallbacks maxChunk fuel (inflight maxChunk bufLen idx b) =
        some ({ bufferSize := bufLen, tx_idx := bufLen, transfer := tr,
                busy := b, notified := true },
              callbackTrace maxChunk bufLen fuel idx) := by
  intro fuel
  induction fuel with
  | zero => intro idx b h1 h2; exfalso; omega
  | succ fuel ih =>
      intro idx b h1 h2
      have hcs := chunkSize_pos maxChunk bufLen idx hm h1
      have hle := add_chunkSize_le maxChunk bufLen idx (le_of_lt h1)
      have hcb := callback_inflight maxChunk bufLen idx b h1
      by_cases he : idx + chunkSize maxChunk bufLen idx = bufLen
      · rw [if_pos he] at hcb
        refine ⟨{ offset := idx, dataSize := chunkSize maxChunk bufLen idx }, ?_⟩
        simp [runTxCallbacks, inflight_notified, hcb, runTx_notified,
              callbackTrace, he]
      · rw [if_neg he] at hcb
        have hlt : idx + chunkSize maxChunk bufLen idx < bufLen :=
          lt_of_le_of_ne hle he
        obtain ⟨tr, hrec⟩ :=
          ih (idx + chunkSize maxChunk bufLen idx) b hlt (by omega)
        refine ⟨tr, ?_⟩
        simp [runTxCallbacks, inflight_notified, hcb, hrec, callbackTrace, he]

/-! ### The full transfer trace of a write -/

lemma writeTrace_last (maxChunk bufLen fuel idx : Nat)
    (he : idx + chunkSize maxChunk bufLen idx = bufLen) :
    writeTrace maxChunk bufLen (fuel + 1) idx =
      [{ offset := idx, dataSize := chunkSize maxChunk bufLen idx }] := by
  simp [writeTrace, callbackTrace, he]

lemma writeTrace_step (maxChunk bufLen fuel idx : Nat) (h : idx ≤ bufLen)
    (hlt : idx + chunkSize maxChunk bufLen idx < bufLen) :
    writeTrace maxChunk bufLen (fuel + 1) idx =
      { offset := idx, dataSize := maxChunk } ::
        writeTrace maxChunk bufLen fuel (idx + maxChunk) := by
  have hcsmax := chunkSize_of_mid maxChunk bufLen idx h hlt
  have hne : ¬(idx + maxChunk = bufLen) := by omega
  simp [writeTrace, callbackTrace, hcsmax, hne]

lemma writeTrace_length (maxChunk bufLen : Nat) (hm : 1 ≤ maxChunk) :
    ∀ fuel idx, idx < bufLen → bufLen - idx ≤ fuel →
      (writeTrace maxChunk bufLen fuel idx).length =
        (bufLen - idx + maxChunk - 1) / maxChunk := by
  intro fuel
  induction fuel with
  | zero => intro idx h1 h2; exfalso; omega
  | succ fuel ih =>
      intro idx h1 h2
      have hcs := chunkSize_pos maxChunk bufLen idx hm h1
      have hle := add_chunkSize_le maxChunk bufLen idx (le_of_lt h1)
      have hcmax := chunkSize_le_max maxChunk bufLen idx (le_of_lt h1)
      by_cases he : idx + chunkSize maxChunk bufLen idx = bufLen
      · rw [writeTrace_last maxChunk bufLen fuel idx he]
        have hx : 1 * maxChunk ≤ bufLen - idx + maxChunk - 1 := by omega
        have hy : bufLen - idx + maxChunk - 1 < (1 + 1) * maxChunk := by omega
        simpa using (Nat.div_eq_of_lt_le hx hy).symm
      · have hlt : idx + chunkSize maxChunk bufLen idx < bufLen :=
          lt_of_le_of_ne hle he
        have hcsmax := chunkSize_of_mid maxChunk bufLen idx (le_of_lt h1) hlt
        rw [writeTrace_step maxChunk bufLen fuel idx (le_of_lt h1) hlt,
            List.length_cons, ih (idx + maxChunk) (by omega) (by omega)]
        have key : bufLen - idx + maxChunk - 1 =
            (bufLen - (idx + maxChunk) + maxChunk - 1) + maxChunk := by omega
        rw [key, Nat.add_div_right _ (by omega : 0 < maxChunk)]

lemma writeTrace_getElem (maxChunk bufLen : Nat) (hm : 1 ≤ maxChunk) :
    ∀ fuel idx, idx < bufLen → bufLen - idx ≤ fuel →
      ∀ i (hi : i < (writeTrace maxChunk bufLen fuel idx).length),
        (writeTrace maxChunk bufLen fuel idx)[i] =
          { offset := idx + i * maxChunk,
            dataSize := min maxChunk (bufLen - (idx + i * maxChunk)) } := by
  intro fuel
  induction fuel with
  | zero => intro idx h1 h2; exfalso; omega
  | succ fuel ih =>
      intro idx h1 h2 i hi
      have hcs := chunkSize_pos maxChunk bufLen idx hm h1
      have hle := add_chunkSize_le maxChunk bufLen idx (le_of_lt h1)
      have hmin := chunkSize_eq_min maxChunk bufLen idx (le_of_lt h1)
      by_cases he : idx + chunkSize maxChunk bufLen idx = bufLen
      · rw [writeTrace_last maxChunk bufLen fuel idx he] at hi
        simp only [writeTrace_last maxChunk bufLen fuel idx he]
        have hi0 : i = 0 := by simpa using hi
        subst hi0
        simp only [List.getElem_cons_zero, Nat.zero_mul, Nat.add_zero]
        rw [hmin]
      · have hlt : idx + chunkSize maxChunk bufLen idx < bufLen :=
          lt_of_le_of_ne hle he
        have hcsmax := chunkSize_of_mid maxChunk bufLen idx (le_of_lt h1) hlt
        rw [writeTrace_step maxChunk bufLen fuel idx (le_of_lt h1) hlt] at hi
        simp only [writeTrace_step maxChunk bufLen fuel idx (le_of_lt h1) hlt]
        cases i with
        | zero =>
            simp only [List.getElem_cons_zero, Nat.zero_mul, Nat.add_zero]
            have : min maxChunk (bufLen - idx) = maxChunk := by omega
            rw [this]
        | succ j =>
            have hj : j < (writeTrace maxChunk bufLen fuel (idx + maxChunk)).length := by
              simpa using hi
            simp only [List.getElem_cons_succ]
            rw [ih (idx + maxChunk) (by omega) (by omega) j hj]
            have harith : idx + maxChunk + j * maxChunk = idx + (j + 1) * maxChunk := by
              ring
            rw [harith]

/-! ### Characterizations of `DoWrite` -/

/-- A write on a non-busy instance triggers the first chunk at offset 0
and then runs the completion callbacks to quiescence. -/
lemma DoWrite_busyFree (maxChunk dataLen : Nat) (st : DriverState)
    (hn : dataLen ≠ 0) (hbusy : st.tx.busy = false)
    (hnot : st.tx.notified = false) :
    DoWrite maxChunk st dataLen =
      Option.map
        (fun r => (Status.ok,
          ({ initialized := st.initialized,
             tx := { r.1 with notified := false, busy := false } } : DriverState),
          { offset := 0, dataSize := chunkSize maxChunk dataLen 0 } :: r.2))
        (runTxCallbacks maxChunk dataLen (inflight maxChunk dataLen 0 true)) := by
  obtain ⟨ini, bs, ti, tr, bu, no⟩ := st
  have hbu : bu = false := hbusy
  have hno : no = false := hnot
  subst hbu; subst hno
  have hfold : TriggerWriteDma maxChunk ⟨dataLen, 0, tr, true, false⟩ =
      (inflight maxChunk dataLen 0 true,
       { offset := 0, dataSize := chunkSize maxChunk dataLen 0 }) := rfl
  cases hr : runTxCallbacks maxChunk dataLen (inflight maxChunk dataLen 0 true) with
  | none => simp [DoWrite, hn, hfold, hr]
  | some p =>
      obtain ⟨tx2, ts⟩ := p
      simp [DoWrite, hn, hfold, hr]

/-- `DoWrite` never reads the `initialized_` flag: its outcome on any
instance is the outcome on the same transmit record with the flag
forced to any other value, with only the flag carried through. -/
lemma DoWrite_init_flag (maxChunk dataLen : Nat) (b i : Bool)
    (tx : UsartDmaTxData) :
    DoWrite maxChunk { initialized := b, tx := tx } dataLen =
      Option.map
        (fun r => (r.1, ({ initialized := b, tx := r.2.1.tx } : DriverState),
                   r.2.2))
        (DoWrite maxChunk { initialized := i, tx := tx } dataLen) := by
  obtain ⟨bs, ti, tr, bu, no⟩ := tx
  by_cases hn : dataLen = 0
  · simp [DoWrite, hn]
  · cases bu with
    | true => simp [DoWrite, hn]
    | false =>
        cases hr : runTxCallbacks maxChunk dataLen
            (TriggerWriteDma maxChunk ⟨dataLen, 0, tr, true, no⟩).1 with
        | none => simp [DoWrite, hn, hr]
        | some p =>
            obtain ⟨tx2, ts⟩ := p
            simp [DoWrite, hn, hr]

/-- The only statuses `DoWrite` can return. -/
lemma DoWrite_status_range (maxChunk len : Nat) (st2 : DriverState)
    (s : Status) (st3 : DriverState) (ts : List Transfer)
    (h : DoWrite maxChunk st2 len = some (s, st3, ts)) :
    s = Status.ok ∨ s = Status.invalidArgument ∨
      s = Status.failedPrecondition := by
  obtain ⟨ini, bs, ti, tr, bu, no⟩ := st2
  by_cases h0 : len = 0
  · simp [DoWrite, h0] at h
    exact Or.inr (Or.inl h.1.symm)
  · cases bu with
    | true =>
        simp [DoWrite, h0] at h
        exact Or.inr (Or.inr h.1.symm)
    | false =>
        cases hr : runTxCallbacks maxChunk len
            (TriggerWriteDma maxChunk ⟨len, 0, tr, true, no⟩).1 with
        | none => simp [DoWrite, h0, hr] at h
        | some p =>
            obtain ⟨tx2, ts2⟩ := p
            simp [DoWrite, h0, hr] at h
            exact Or.inl h.1.symm

/-! ### Claim theorems -/

/-- Claim C1: for every non-empty buffer, a Write that returns success
issues exactly ceil(len / maxChunk) hardware transfer invocations
(calls to `USART_TransferSendDMA`); the i-th transfer starts at buffer
offset i * maxChunk and has size min(maxChunk, remaining bytes); the
transfers occur in strictly increasing buffer-offset order; and the
final cursor `tx_idx` equals the buffer length. -/
theorem C1_write_chunking (maxChunk dataLen : Nat) (st : DriverState)
    (hm : 1 ≤ maxChunk) (hn : 1 ≤ dataLen)
    (hbusy : st.tx.busy = false) (hnot : st.tx.notified = false) :
    ∃ st1 ts, DoWrite maxChunk st dataLen = some (Status.ok, st1, ts) ∧
      ts.length = (dataLen + maxChunk - 1) / maxChunk ∧
      (∀ i (hi : i < ts.length),
        ts[i] = { offset := i * maxChunk,
                  dataSize := min maxChunk (dataLen - i * maxChunk) }) ∧
      ts.Pairwise (fun a b => a.offset < b.offset) ∧
      st1.tx.tx_idx = dataLen := by
  have hn0 : dataLen ≠ 0 := by omega
  obtain ⟨tr, hrec⟩ :=
    runTx_inflight maxChunk dataLen hm dataLen 0 true (by omega) (by omega)
  rw [DoWrite_busyFree maxChunk dataLen st hn0 hbusy hnot, hrec]
  simp only [Option.map_some']
  have hts : ({ offset := 0, dataSize := chunkSize maxChunk dataLen 0 } ::
      callbackTrace maxChunk dataLen dataLen 0) =
      writeTrace maxChunk dataLen dataLen 0 := rfl
  rw [hts]
  refine ⟨_, _, rfl, ?_, ?_, ?_, rfl⟩
  · rw [writeTrace_length maxChunk dataLen hm dataLen 0 (by omega) (by omega)]
    simp
  · intro i hi
    rw [writeTrace_getElem maxChunk dataLen hm dataLen 0 (by omega) (by omega) i hi]
    simp
  · rw [List.pairwise_iff_getElem]
    intro a c ha hc hac
    rw [writeTrace_getElem maxChunk dataLen hm dataLen 0 (by omega) (by omega) a ha,
        writeTrace_getElem maxChunk dataLen hm dataLen 0 (by omega) (by omega) c hc]
    simpa using Nat.add_lt_add_left (mul_lt_mul_of_pos_right hac (by omega)) 0

theorem C1_witness :
    (1 ≤ 2 ∧ 1 ≤ 5 ∧ freshState.tx.busy = false ∧
      freshState.tx.notified = false) ∧
    (∃ st1 ts, DoWrite 2 freshState 5 = some (Status.ok, st1, ts) ∧
      ts.length = (5 + 2 - 1) / 2 ∧
      (∀ i (hi : i < ts.length),
        ts[i] = { offset := i * 2, dataSize := min 2 (5 - i * 2) }) ∧
      ts.Pairwise (fun a b => a.offset < b.offset) ∧
      st1.tx.tx_idx = 5) :=
  ⟨⟨by decide, by decide, rfl, rfl⟩,
   C1_write_chunking 2 5 freshState (by decide) (by decide) rfl rfl⟩

/-- Claim C2: within one Write the cursor is monotonically
non-decreasing (each TxIdle completion adds the completed chunk's size)
and never exceeds the buffer length: after a callback either the cursor
equals the buffer length (and the notification is released) or it is
strictly below it (and the next chunk is re-triggered); the fatal check
`PW_CHECK_INT_LT` never fires (the callback never aborts), because the
chunk size is always clamped to the remaining byte count — the second
conjunct shows every in-flight state produced by `TriggerWriteDma`
satisfies the clamping bound assumed by the first. -/
theorem C2_cursor_monotone (maxChunk : Nat) (tx : UsartDmaTxData)
    (hclamp : tx.tx_idx + tx.transfer.dataSize ≤ tx.bufferSize) :
    (∃ tx1 ts,
      TxRxCompletionCallback maxChunk HwStatus.txIdle tx = some (tx1, ts) ∧
      tx1.tx_idx = tx.tx_idx + tx.transfer.dataSize ∧
      tx.tx_idx ≤ tx1.tx_idx ∧
      tx1.tx_idx ≤ tx.bufferSize ∧
      tx1.bufferSize = tx.bufferSize ∧
      (tx1.tx_idx = tx.bufferSize → tx1.notified = true ∧ ts = []) ∧
      (tx1.tx_idx < tx.bufferSize →
        tx1.notified = tx.notified ∧
        ts = [{ offset := tx1.tx_idx,
                dataSize := chunkSize maxChunk tx.bufferSize tx1.tx_idx }])) ∧
    (∀ bufLen idx b, idx ≤ bufLen →
      (inflight maxChunk bufLen idx b).tx_idx +
        (inflight maxChunk bufLen idx b).transfer.dataSize ≤ bufLen) := by
  constructor
  · obtain ⟨bs, ti, ⟨off, ds⟩, bu, no⟩ := tx
    simp only at hclamp
    by_cases he : ti + ds = bs
    · refine ⟨⟨bs, ti + ds, ⟨off, ds⟩, bu, true⟩, [], ?_,
              rfl, Nat.le_add_right ti ds, hclamp, rfl, fun _ => ⟨rfl, rfl⟩,
              fun hx => absurd (show ti + ds < bs from hx) (by omega)⟩
      simp [TxRxCompletionCallback, he]
    · have hlt : ti + ds < bs := by omega
      refine ⟨⟨bs, ti + ds, ⟨ti + ds, chunkSize maxChunk bs (ti + ds)⟩, bu, no⟩,
              [⟨ti + ds, chunkSize maxChunk bs (ti + ds)⟩], ?_,
              rfl, Nat.le_add_right ti ds, hclamp, rfl,
              fun hx => absurd (show ti + ds = bs from hx) he,
              fun _ => ⟨rfl, rfl⟩⟩
      simp [TxRxCompletionCallback, he, hlt, TriggerWriteDma_eq]
  · intro bufLen idx b h
    simpa [inflight] using add_chunkSize_le maxChunk bufLen idx h

theorem C2_witness :
    ((⟨5, 2, ⟨2, 2⟩, true, false⟩ : UsartDmaTxData).tx_idx +
        (⟨5, 2, ⟨2, 2⟩, true, false⟩ : UsartDmaTxData).transfer.dataSize ≤
        (⟨5, 2, ⟨2, 2⟩, true, false⟩ : UsartDmaTxData).bufferSize) ∧
    ((∃ tx1 ts,
      TxRxCompletionCallback 2 HwStatus.txIdle
          (⟨5, 2, ⟨2, 2⟩, true, false⟩ : UsartDmaTxData) = some (tx1, ts) ∧
      tx1.tx_idx = (⟨5, 2, ⟨2, 2⟩, true, false⟩ : UsartDmaTxData).tx_idx +
        (⟨5, 2, ⟨2, 2⟩, true, false⟩ : UsartDmaTxData).transfer.dataSize ∧
      (⟨5, 2, ⟨2, 2⟩, true, false⟩ : UsartDmaTxData).tx_idx ≤ tx1.tx_idx ∧
      tx1.tx_idx ≤ (⟨5, 2, ⟨2, 2⟩, true, false⟩ : UsartDmaTxData).bufferSize ∧
      tx1.bufferSize = (⟨5, 2, ⟨2, 2⟩, true, false⟩ : UsartDmaTxData).bufferSize ∧
      (tx1.tx_idx = (⟨5, 2, ⟨2, 2⟩, true, false⟩ : UsartDmaTxData).bufferSize →
        tx1.notified = true ∧ ts = []) ∧
      (tx1.tx_idx < (⟨5, 2, ⟨2, 2⟩, true, false⟩ : UsartDmaTxData).bufferSize →
        tx1.notified = (⟨5, 2, ⟨2, 2⟩, true, false⟩ : UsartDmaTxData).notified ∧
        ts = [{ offset := tx1.tx_idx,
                dataSize := chunkSize 2
                  (⟨5, 2, ⟨2, 2⟩, true, false⟩ : UsartDmaTxData).bufferSize
                  tx1.tx_idx }])) ∧
    (∀ bufLen idx b, idx ≤ bufLen →
      (inflight 2 bufLen idx b).tx_idx +
        (inflight 2 bufLen idx b).transfer.dataSize ≤ bufLen)) :=
  ⟨by decide, C2_cursor_monotone 2 ⟨5, 2, ⟨2, 2⟩, true, false⟩ (by decide)⟩

/-- Claim C3: a second Write with a non-empty buffer while a write is in
flight (busy flag set) observes the already-set busy flag via the
atomic exchange and returns `FailedPrecondition` immediately, leaving
the whole driver state — buffer, cursor, transfer descriptor,
notification and busy flag — unaltered, issuing no transfer. -/
theorem C3_concurrent_write_rejected (maxChunk dataLen : Nat)
    (st : DriverState) (hbusy : st.tx.busy = true) (hn : 1 ≤ dataLen) :
    DoWrite maxChunk st dataLen = some (Status.failedPrecondition, st, []) := by
  obtain ⟨ini, bs, ti, tr, bu, no⟩ := st
  have hbu : bu = true := hbusy
  subst hbu
  have hn0 : dataLen ≠ 0 := by omega
  simp [DoWrite, hn0]

/-- An instance with a write in flight. -/
def busyState : DriverState :=
  { initialized := true,
    tx := { bufferSize := 4, tx_idx := 1, transfer := { offset := 1, dataSize := 2 },
            busy := true, notified := false } }

theorem C3_witness :
    busyState.tx.busy = true ∧ 1 ≤ 3 ∧
    DoWrite 2 busyState 3 = some (Status.failedPrecondition, busyState, []) :=
  ⟨rfl, by decide, C3_concurrent_write_rejected 2 3 busyState rfl (by decide)⟩

/-- Claim C4: `Init(srcclk)` returns `InvalidArgument` if the clock
frequency is zero, the USART handle is null, the baud rate is zero, or
the DMA handle is null — each condition independently sufficient — and
does so before any hardware mutation: the hardware event trace is empty
and the initialized flag stays unset. -/
theorem C4_init_validation (cfg : Config) (srcclk : Nat) (u c : Bool)
    (h : srcclk = 0 ∨ cfg.usart_base = none ∨ cfg.baud_rate = 0 ∨
         cfg.dma_base = none) :
    Init cfg srcclk u c = (Status.invalidArgument, false, []) := by
  rcases h with h | h | h | h <;> simp [Init, h]

theorem C4_witness :
    (0 = 0 ∨ sampleConfig.usart_base = none ∨ sampleConfig.baud_rate = 0 ∨
      sampleConfig.dma_base = none) ∧
    Init sampleConfig 0 true true = (Status.invalidArgument, false, []) :=
  ⟨Or.inl rfl, C4_init_validation sampleConfig 0 true true (Or.inl rfl)⟩

/-- Claim C5: if `USART_TransferCreateHandleDMA` fails during `Init`,
the driver calls `Deinit` — which disables both DMA channels and
deinitializes the USART — before returning `Internal`: the event trace
ends with the teardown sequence, after which neither DMA channel nor
the USART is left enabled, and the initialized flag stays unset. -/
theorem C5_init_rollback (cfg : Config) (srcclk : Nat)
    (h0 : srcclk ≠ 0) (h1 : cfg.usart_base ≠ none)
    (h2 : cfg.baud_rate ≠ 0) (h3 : cfg.dma_base ≠ none) :
    ∃ evs, Init cfg srcclk true false = (Status.internal, false, evs) ∧
      List.IsSuffix (Deinit cfg) evs ∧
      channelEnabled cfg.tx_dma_ch evs = false ∧
      channelEnabled cfg.rx_dma_ch evs = false ∧
      usartActive evs = false := by
  refine ⟨[HwEvent.usartInit,
           HwEvent.inputmuxInit,
           HwEvent.inputmuxEnableSignal cfg.rx_input_mux_dmac_ch_request_en,
           HwEvent.inputmuxEnableSignal cfg.tx_input_mux_dmac_ch_request_en,
           HwEvent.inputmuxDeinit,
           HwEvent.enableChannel cfg.tx_dma_ch,
           HwEvent.enableChannel cfg.rx_dma_ch,
           HwEvent.dmaCreateHandle cfg.tx_dma_ch,
           HwEvent.dmaCreateHandle cfg.rx_dma_ch,
           HwEvent.transferCreateHandleDMA,
           HwEvent.disableChannel cfg.tx_dma_ch,
           HwEvent.disableChannel cfg.rx_dma_ch,
           HwEvent.usartDeinit], ?_, ?_, ?_, ?_, ?_⟩
  · simp [Init, Deinit, h0, h1, h2, h3]
  · exact ⟨[HwEvent.usartInit,
            HwEvent.inputmuxInit,
            HwEvent.inputmuxEnableSignal cfg.rx_input_mux_dmac_ch_request_en,
            HwEvent.inputmuxEnableSignal cfg.tx_input_mux_dmac_ch_request_en,
            HwEvent.inputmuxDeinit,
            HwEvent.enableChannel cfg.tx_dma_ch,
            HwEvent.enableChannel cfg.rx_dma_ch,
            HwEvent.dmaCreateHandle cfg.tx_dma_ch,
            HwEvent.dmaCreateHandle cfg.rx_dma_ch,
            HwEvent.transferCreateHandleDMA], by simp [Deinit]⟩
  · simp [channelEnabled, stepChannel]
  · simp [channelEnabled, stepChannel]
  · simp [usartActive, stepUsart]

theorem C5_witness :
    ((12000000 : Nat) ≠ 0 ∧ sampleConfig.usart_base ≠ none ∧
      sampleConfig.baud_rate ≠ 0 ∧ sampleConfig.dma_base ≠ none) ∧
    (∃ evs, Init sampleConfig 12000000 true false = (Status.internal, false, evs) ∧
      List.IsSuffix (Deinit sampleConfig) evs ∧
      channelEnabled sampleConfig.tx_dma_ch evs = false ∧
      channelEnabled sampleConfig.rx_dma_ch evs = false ∧
      usartActive evs = false) :=
  ⟨⟨by decide, by decide, by decide, by decide⟩,
   C5_init_rollback sampleConfig 12000000 (by decide) (by decide) (by decide)
     (by decide)⟩

/-- Claim C6: destroying an instance whose initialized flag was never
set performs no teardown (no channel disable, no USART deinitialize);
destroying a successfully initialized instance invokes the teardown
sequence.  `Init` sets the flag exactly when it returns OK. -/
theorem C6_destructor (cfg : Config) (srcclk : Nat) (u c : Bool) :
    destructorEvents false cfg = [] ∧
    destructorEvents true cfg = Deinit cfg ∧
    ((Init cfg srcclk u c).1 = Status.ok ↔ (Init cfg srcclk u c).2.1 = true) := by
  refine ⟨rfl, rfl, ?_⟩
  unfold Init
  split_ifs <;> simp

/-- Claim C7: a Write of the empty buffer returns `InvalidArgument`
without touching any state: the busy flag is not exchanged, the
transmit record is unmodified (the returned state is exactly the input
state) and no hardware transfer is issued. -/
theorem C7_empty_write (maxChunk : Nat) (st : DriverState) :
    DoWrite maxChunk st 0 = some (Status.invalidArgument, st, []) := by
  simp [DoWrite]

/-- Claim C8: a Read into a destination of length N returns success
with reported size N, leaves the destination untouched and issues no
hardware transfer. -/
theorem C8_read_stub (data : List Nat) :
    DoRead data = ({ status := Status.ok, size := data.length }, data, []) := rfl

/-- Claim C9: whenever Write returns success, the busy flag of the
returned state is false, so a subsequent Write can claim it. -/
theorem C9_busy_cleared (maxChunk dataLen : Nat) (st st1 : DriverState)
    (ts : List Transfer)
    (h : DoWrite maxChunk st dataLen = some (Status.ok, st1, ts)) :
    st1.tx.busy = false := by
  obtain ⟨ini, bs, ti, tr, bu, no⟩ := st
  by_cases h0 : dataLen = 0
  · simp [DoWrite, h0] at h
  · cases bu with
    | true => simp [DoWrite, h0] at h
    | false =>
        cases hr : runTxCallbacks maxChunk dataLen
            (TriggerWriteDma maxChunk ⟨dataLen, 0, tr, true, no⟩).1 with
        | none => simp [DoWrite, h0, hr] at h
        | some p =>
            obtain ⟨tx2, ts2⟩ := p
            simp [DoWrite, h0, hr] at h
            obtain ⟨hst, -⟩ := h
            rw [← hst]

theorem C9_witness :
    (DriverState.mk false (UsartDmaTxData.mk 3 3 (Transfer.mk 2 1) false false)).tx.busy
      = false :=
  C9_busy_cleared 2 3 freshState
    (DriverState.mk false (UsartDmaTxData.mk 3 3 (Transfer.mk 2 1) false false))
    [Transfer.mk 0 2, Transfer.mk 2 1] (by decide)

/-- Claim C10: `DoWrite` never checks the initialized flag.  On an
uninitialized, non-busy instance a non-empty Write proceeds exactly as
on an initialized one: it succeeds, stores the buffer (final
`bufferSize` is the data length) and issues the first DMA transfer at
offset 0; the outcome is invariant under the initialized flag; and the
only statuses `DoWrite` ever returns are OK, `InvalidArgument` (empty
buffer) and `FailedPrecondition` (concurrent write). -/
theorem C10_no_init_check (maxChunk dataLen : Nat) (st : DriverState)
    (hm : 1 ≤ maxChunk) (hinit : st.initialized = false)
    (hbusy : st.tx.busy = false) (hnot : st.tx.notified = false)
    (hn : 1 ≤ dataLen) :
    (∃ st1 ts, DoWrite maxChunk st dataLen = some (Status.ok, st1, ts) ∧
       st1.tx.bufferSize = dataLen ∧
       ts.head? = some { offset := 0, dataSize := chunkSize maxChunk dataLen 0 }) ∧
    (∀ b : Bool, DoWrite maxChunk { st with initialized := b } dataLen =
       Option.map
         (fun r => (r.1, ({ initialized := b, tx := r.2.1.tx } : DriverState),
                    r.2.2))
         (DoWrite maxChunk st dataLen)) ∧
    (∀ (st2 : DriverState) (len : Nat) (s : Status) (st3 : DriverState)
        (ts : List Transfer),
       DoWrite maxChunk st2 len = some (s, st3, ts) →
       s = Status.ok ∨ s = Status.invalidArgument ∨
         s = Status.failedPrecondition) := by
  refine ⟨?_, ?_, fun st2 len s st3 ts h => DoWrite_status_range maxChunk len st2 s st3 ts h⟩
  · have hn0 : dataLen ≠ 0 := by omega
    obtain ⟨tr, hrec⟩ :=
      runTx_inflight maxChunk dataLen hm dataLen 0 true (by omega) (by omega)
    rw [DoWrite_busyFree maxChunk dataLen st hn0 hbusy hnot, hrec]
    exact ⟨_, _, rfl, rfl, rfl⟩
  · intro b
    obtain ⟨ini, tx⟩ := st
    have hini : ini = false := hinit
    subst hini
    exact DoWrite_init_flag maxChunk dataLen b false tx

theorem C10_witness :
    (1 ≤ 2 ∧ freshState.initialized = false ∧ freshState.tx.busy = false ∧
      freshState.tx.notified = false ∧ 1 ≤ 3) ∧
    ((∃ st1 ts, DoWrite 2 freshState 3 = some (Status.ok, st1, ts) ∧
       st1.tx.bufferSize = 3 ∧
       ts.head? = some { offset := 0, dataSize := chunkSize 2 3 0 }) ∧
    (∀ b : Bool, DoWrite 2 { freshState with initialized := b } 3 =
       Option.map
         (fun r => (r.1, ({ initialized := b, tx := r.2.1.tx } : DriverState),
                    r.2.2))
         (DoWrite 2 freshState 3)) ∧
    (∀ (st2 : DriverState) (len : Nat) (s : Status) (st3 : DriverState)
        (ts : List Transfer),
       DoWrite 2 st2 len = some (s, st3, ts) →
       s = Status.ok ∨ s = Status.invalidArgument ∨
         s = Status.failedPrecondition)) :=
  ⟨⟨by decide, rfl, rfl, rfl, by decide⟩,
   C10_no_init_check 2 3 freshState (by decide) rfl rfl rfl (by decide)⟩

end UartDmaStream
